import Mathlib

/-!
Shallow embedding of the slot-availability and reservation engine of the
barbershop booking app, translated from
`src/app/barbershops/[barbershopId]/_components/service-item.tsx`.

The component keeps React state (`date`, `hour`, `submitIsLoading`,
`sheetIsOpen`, `dayBookings`) and exposes the handlers `handleDateClick`,
`handleHourClick` and `handleBookingSubmit`, plus the memoised `timeList`
(the availability filter).  `generateDayTimeList` (the slot generator helper),
`saveBooking` and `getDayBookings` (the server actions) are imported by the
component but their files are not part of the sources; where a claim depends
on them they are modelled from the spec, and marked as such.

Dates are modelled structurally: a JS `Date` restricted to the fields the
program reads and writes (calendar day index, hours, minutes, seconds,
milliseconds).  JS strings and `String.prototype.split` / `Number` are
modelled on lists of characters.
-/

namespace Barber

/-- A time-of-day at minute granularity: what a slot string "HH:MM" denotes. -/
structure TimeOfDay where
  hour : Nat
  minute : Nat
deriving DecidableEq, Repr

/-- Minutes since midnight; the order downstream display relies on. -/
def TimeOfDay.key (t : TimeOfDay) : Nat := t.hour * 60 + t.minute

/-- A JS `Date` value, restricted to the fields the component reads or writes:
the calendar day (as an abstract day index), hours, minutes, seconds and
milliseconds. -/
structure DateTime where
  day : Nat
  hour : Nat
  minute : Nat
  second : Nat
  millisecond : Nat
deriving DecidableEq, Repr

/-- A persisted `Booking` record (Prisma model): id, service, barbershop,
user, scheduled date-time. -/
structure Booking where
  id : Nat
  serviceId : Nat
  barbershopId : Nat
  userId : Nat
  date : DateTime
deriving DecidableEq, Repr

/-- The argument object passed to `saveBooking` at lines 71-76 of
service-item.tsx.  `date` is `none` when the computed JS date is an
Invalid Date (NaN hour or minute parsed from the slot string). -/
structure BookingRequest where
  serviceId : Nat
  barbershopId : Nat
  date : Option DateTime
  userId : Nat
deriving DecidableEq, Repr

/-! ### date-fns primitives used by the component (external library semantics) -/

/-- date-fns `setHours`: replace the hours of a date, keeping every other
field (day, minutes, seconds, milliseconds). -/
def setHours (d : DateTime) (h : Nat) : DateTime := { d with hour := h }

/-- date-fns `setMinutes`: replace the minutes of a date, keeping every other
field (day, hours, seconds, milliseconds). -/
def setMinutes (d : DateTime) (m : Nat) : DateTime := { d with minute := m }

/-- date-fns `addDays`: shift the calendar day, keeping the time fields. -/
def addDays (d : DateTime) (n : Nat) : DateTime := { d with day := d.day + n }

/-! ### JS string primitives used by the component -/

/-- Accumulator loop behind `jsSplit`. -/
def jsSplitAux (sep : Char) : List Char → List Char → List String
  | [], acc => [String.mk acc.reverse]
  | c :: cs, acc =>
    if c = sep then String.mk acc.reverse :: jsSplitAux sep cs []
    else jsSplitAux sep cs (c :: acc)

/-- JS `String.prototype.split` with a one-character separator. -/
def jsSplit (s : String) (sep : Char) : List String :=
  jsSplitAux sep s.toList []

/-- Digit-run parser behind `jsNumber`; `none` models NaN. -/
def parseDigitsAux : List Char → Nat → Option Nat
  | [], acc => some acc
  | c :: cs, acc =>
    if c.isDigit then parseDigitsAux cs (acc * 10 + (c.toNat - 48))
    else none

/-- JS `Number(s)` on a string of decimal digits: `Number "" = 0`,
`Number "09" = 9`; a non-digit character yields NaN, modelled as `none`. -/
def jsNumber (s : String) : Option Nat := parseDigitsAux s.toList 0

/-- JS `Number(parts[i])`: indexing past the end gives `undefined` and
`Number undefined` is NaN (`none`). -/
def jsNumberAt (parts : List String) (i : Nat) : Option Nat :=
  match parts[i]? with
  | none => none
  | some s => jsNumber s

/-! ### The slot generator (helper not among the sources) -/

/-- An operating-hours policy: opening time, closing time (both as minutes
since midnight) and slot granularity in minutes. -/
structure HoursPolicy where
  openingMinutes : Nat
  closingMinutes : Nat
  granularity : Nat
deriving DecidableEq, Repr

/-- Modelled from the spec: `generateDayTimeList`
(`_helpers/hours`, imported at line 15 of service-item.tsx) is not among the
sources.  Spec 4.1: a finite, deterministic sequence of time-of-day values
from opening time (inclusive) up to but excluding closing time, stepping by
the granularity, ascending; it never emits a slot at or past closing.  The
day argument only anchors the values and (for today) could skip past slots;
the calendar restricts selection to tomorrow onward, so the sequence depends
on the policy alone here. -/
def generateSlots (p : HoursPolicy) : List TimeOfDay :=
  (List.range ((p.closingMinutes - p.openingMinutes + p.granularity - 1) / p.granularity)).map
    (fun i =>
      ⟨(p.openingMinutes + i * p.granularity) / 60,
       (p.openingMinutes + i * p.granularity) % 60⟩)

/-! ### The availability filter (`timeList`, service-item.tsx lines 97-119)

The generated slot strings are "HH:MM" labels; the filter parses each back
into its hour and minute before comparing, so a slot is represented here by
the `TimeOfDay` it denotes. -/

/-- The predicate of the `.filter` callback at lines 102-118: a slot is kept
when `dayBookings.find` locates no booking whose `getHours`/`getMinutes`
equal the slot's parsed hour and minutes. -/
def slotIsFree (dayBookings : List Booking) (time : TimeOfDay) : Bool :=
  match dayBookings.find? (fun booking =>
      booking.date.hour == time.hour && booking.date.minute == time.minute) with
  | some _ => false
  | none => true

/-- The `.filter` at lines 102-118 applied to an arbitrary candidate slot
sequence. -/
def filterAvailable (slots : List TimeOfDay) (dayBookings : List Booking) :
    List TimeOfDay :=
  slots.filter (slotIsFree dayBookings)

/-- `timeList` (lines 97-119): empty when no date is selected, otherwise the
generated day slots filtered against `dayBookings`. -/
def timeList (p : HoursPolicy) (date : Option DateTime)
    (dayBookings : List Booking) : List TimeOfDay :=
  match date with
  | none => []
  | some _ => filterAvailable (generateSlots p) dayBookings

/-! ### Component state and handlers -/

/-- The React state of `ServiceItem` (lines 34-38).  `hour` holds the
selected slot string (e.g. "09:00"), exactly as in the component. -/
structure ComponentState where
  date : Option DateTime
  hour : Option String
  submitIsLoading : Bool
  sheetIsOpen : Bool
  dayBookings : List Booking
deriving DecidableEq, Repr

/-- `handleDateClick` (lines 43-46): store the calendar value and clear the
selected hour. -/
def handleDateClick (s : ComponentState) (value : Option DateTime) :
    ComponentState :=
  { s with date := value, hour := none }

/-- `handleHourClick` (lines 48-50): store the clicked slot string. -/
def handleHourClick (s : ComponentState) (value : String) : ComponentState :=
  { s with hour := some value }

/-- The `disabled` prop of the confirm button (line 275):
`!hour || !date || submitIsLoading`.  (Slot labels are nonempty "HH:MM"
strings, so JS falsiness of `hour` coincides with absence.) -/
def confirmButtonDisabled (s : ComponentState) : Bool :=
  s.hour.isNone || s.date.isNone || s.submitIsLoading

/-- The `fromDate` prop of the calendar (line 185): `addDays(new Date(), 1)`,
so only days from tomorrow onward are selectable. -/
def calendarFromDate (now : DateTime) : DateTime := addDays now 1

/-- Whether the calendar at line 180-209 lets the user select day `d`:
`fromDate = addDays(now, 1)` restricts selection to days at or after it. -/
def calendarSelectable (now : DateTime) (d : DateTime) : Bool :=
  (calendarFromDate now).day ≤ d.day

/-- Faults the awaited `saveBooking` server action may throw.  The component
never inspects them (every fault lands in the same catch block). -/
inductive StoreError where
  | conflict
  | unavailable
  | other
deriving DecidableEq, Repr

/-- The spec's rejection kinds (section 7), used to state the spec-level
claims about the handler's outcome. -/
inductive RejectKind where
  | invalidRequest
  | slotTaken
deriving DecidableEq, Repr

/-- The observable result of one `handleBookingSubmit` run.  The code
produces only the first three: `noop` for the silent early return at
lines 62-64, `confirmed` for the success path, `errorLogged` for the catch
block that only logs.  `thrown` (a fault propagating to the caller) and
`rejected` (a reported rejection of the spec's taxonomy) are part of the
observation vocabulary so the spec's claims can be stated; theorems below
settle whether the code ever produces them. -/
inductive AttemptResult where
  | noop
  | confirmed
  | errorLogged (e : StoreError)
  | thrown (e : StoreError)
  | rejected (k : RejectKind)
deriving DecidableEq, Repr

/-- Everything one `handleBookingSubmit` run does that is observable:
the state it leaves, its result, the request passed to `saveBooking` (if the
storage layer was reached), and whether the success toast was shown. -/
structure SubmitOutcome where
  state : ComponentState
  result : AttemptResult
  storeCalled : Option BookingRequest
  toastShown : Bool
deriving DecidableEq, Repr

/-- `handleBookingSubmit` (lines 58-95).  `user` is `data?.user`'s id;
`store` models the awaited `saveBooking` call, which either returns or
throws a fault.  The handler: sets the loading flag; silently returns when
hour, date or user is missing; parses the slot string at ":" with `Number`;
builds the date via `setMinutes(setHours(date, h), m)`; calls `saveBooking`;
on success closes the sheet, clears hour and date and shows the toast; any
fault is caught and only logged; `finally` clears the loading flag. -/
def handleBookingSubmit (serviceId barbershopId : Nat) (s : ComponentState)
    (user : Option Nat) (store : BookingRequest → Except StoreError Booking) :
    SubmitOutcome :=
  match s.hour, s.date, user with
  | some hourStr, some d, some uid =>
    let dateHour := jsNumberAt (jsSplit hourStr ':') 0
    let dateMinutes := jsNumberAt (jsSplit hourStr ':') 1
    let newDate : Option DateTime :=
      match dateHour, dateMinutes with
      | some h, some m => some (setMinutes (setHours d h) m)
      | _, _ => none
    let req : BookingRequest :=
      { serviceId := serviceId, barbershopId := barbershopId,
        date := newDate, userId := uid }
    match store req with
    | Except.ok _ =>
      { state :=
          { s with
            sheetIsOpen := false
            hour := none
            date := none
            submitIsLoading := false }
        result := AttemptResult.confirmed
        storeCalled := some req
        toastShown := true }
    | Except.error e =>
      { state := { s with submitIsLoading := false }
        result := AttemptResult.errorLogged e
        storeCalled := some req
        toastShown := false }
  | _, _, _ =>
    { state := { s with submitIsLoading := false }
      result := AttemptResult.noop
      storeCalled := none
      toastShown := false }

/-! ### The Booking Store (server actions not among the sources)

`saveBooking` (`_actions/save-booking`, imported at line 13) and
`getDayBookings` (`_actions/get-day-bookings`, line 21) are not among the
sources; the store-level model below is built from the spec's contract. -/

/-- A spec-level `reserve` invocation: business, service, user, calendar day
and a time-of-day drawn from the slot sequence (spec section 6's
`reserve(business, service, user, day, timeOfDay)`). -/
structure ReserveCall where
  barbershopId : Nat
  serviceId : Nat
  userId : Nat
  day : Nat
  time : TimeOfDay
deriving DecidableEq, Repr

/-- The combined date-time a reserve call books, at minute granularity
(spec section 6: the persisted date-time has minute granularity). -/
def slotDateTime (day : Nat) (t : TimeOfDay) : DateTime :=
  ⟨day, t.hour, t.minute, 0, 0⟩

/-- Whether the store already holds a booking for the given barbershop at
exactly the given date-time (the uniqueness key of spec section 6). -/
def hasKey (store : List Booking) (biz : Nat) (dt : DateTime) : Bool :=
  store.any (fun b => b.barbershopId == biz && b.date == dt)

/-- Modelled from the spec: `saveBooking`'s storage operation
(`createBooking`, spec section 4.3) is not among the sources.  It must
atomically enforce the uniqueness invariant: if a booking with the same
(business, date-time) exists, it returns a conflict and changes nothing;
otherwise it persists the new booking. -/
def createBooking (store : List Booking) (nextId : Nat) (r : ReserveCall) :
    List Booking × Except StoreError Booking :=
  if hasKey store r.barbershopId (slotDateTime r.day r.time) then
    (store, Except.error StoreError.conflict)
  else
    (⟨nextId, r.serviceId, r.barbershopId, r.userId,
        slotDateTime r.day r.time⟩ :: store,
      Except.ok ⟨nextId, r.serviceId, r.barbershopId, r.userId,
        slotDateTime r.day r.time⟩)

/-- Modelled from the spec: spec section 5 makes `createBooking` the sole
mutation point and requires it to be serializable, so every concurrent
execution of reserve calls is observationally some sequential interleaving;
`runReserves` runs one such interleaving, returning the final store and each
call paired with whether it was Confirmed. -/
def runReserves : List Booking → Nat → List ReserveCall →
    List Booking × List (ReserveCall × Bool)
  | store, _, [] => (store, [])
  | store, n, r :: rs =>
    let step := createBooking store n r
    let ok := match step.2 with
      | Except.ok _ => true
      | Except.error _ => false
    let rest := runReserves step.1 (n + 1) rs
    (rest.1, (r, ok) :: rest.2)

/-- Whether a reserve call targets the given (business, day, time-of-day). -/
def targetsKey (r : ReserveCall) (biz day : Nat) (t : TimeOfDay) : Bool :=
  r.barbershopId == biz && r.day == day && r.time == t

/-- How many calls of a run targeting (business, day, time-of-day) were
Confirmed. -/
def countConfirmed (out : List (ReserveCall × Bool)) (biz day : Nat)
    (t : TimeOfDay) : Nat :=
  (out.filter (fun p => p.2 && targetsKey p.1 biz day t)).length

/-- Two bookings for the same business on the same calendar day with the
same time-of-day (hour and minute): what the no-double-booking invariant
forbids. -/
def sameSlotKey (a b : Booking) : Prop :=
  a.barbershopId = b.barbershopId ∧ a.date.day = b.date.day ∧
    a.date.hour = b.date.hour ∧ a.date.minute = b.date.minute

/-! ### Lemmas about the availability filter -/

/-- The filter's callback keeps a slot exactly when no booking of the day
matches its hour and minute. -/
theorem slotIsFree_eq_true_iff (B : List Booking) (t : TimeOfDay) :
    slotIsFree B t = true ↔
      ∀ b ∈ B, ¬(b.date.hour = t.hour ∧ b.date.minute = t.minute) := by
  unfold slotIsFree
  rcases h : B.find? (fun booking =>
      booking.date.hour == t.hour && booking.date.minute == t.minute) with _ | b
  · rw [h]
    rw [List.find?_eq_none] at h
    simp only [Bool.and_eq_true, beq_iff_eq] at h
    simpa using h
  · rw [h]
    have hb := List.find?_some h
    have hmem := List.mem_of_find?_eq_some h
    simp only [Bool.and_eq_true, beq_iff_eq] at hb
    constructor
    · intro hf
      exact absurd hf (by simp)
    · intro hall
      exact absurd hb (hall b hmem)

/-- C2: a slot is in the filtered sequence exactly when it is a candidate
slot and no existing booking shares its time-of-day (hour and minute); the
filter makes no false exclusions and no false inclusions. -/
theorem filterAvailable_mem_iff (S : List TimeOfDay) (B : List Booking)
    (t : TimeOfDay) :
    t ∈ filterAvailable S B ↔
      t ∈ S ∧ ¬ ∃ b ∈ B, b.date.hour = t.hour ∧ b.date.minute = t.minute := by
  rw [filterAvailable, List.mem_filter, slotIsFree_eq_true_iff]
  simp

/-- C6: the availability filter preserves strict ascending order by
time-of-day: a strictly ascending candidate sequence filters to a strictly
ascending available sequence. -/
theorem filterAvailable_pairwise (S : List TimeOfDay) (B : List Booking)
    (h : List.Pairwise (fun a b => a.key < b.key) S) :
    List.Pairwise (fun a b => a.key < b.key) (filterAvailable S B) :=
  List.Pairwise.sublist (List.filter_sublist S) h

/-- C6 witness: applying the order-preservation theorem to the concrete
ascending candidate list [09:00, 10:00, 11:00] with a booking at 10:00. -/
theorem filterAvailable_pairwise_witness :
    List.Pairwise (fun a b => TimeOfDay.key a < TimeOfDay.key b)
      (filterAvailable [⟨9, 0⟩, ⟨10, 0⟩, ⟨11, 0⟩]
        [⟨1, 1, 1, 1, ⟨5, 10, 0, 0, 0⟩⟩]) :=
  filterAvailable_pairwise [⟨9, 0⟩, ⟨10, 0⟩, ⟨11, 0⟩]
    [⟨1, 1, 1, 1, ⟨5, 10, 0, 0, 0⟩⟩] (by decide)

/-! ### Lemmas about the submit handler -/

/-- Shared shape lemma: with the hour, the date or the user missing, the
handler takes the early return at lines 62-64: no store call, no toast, no
result beyond the silent no-op, and the only state change is the loading
flag ending false. -/
theorem handleBookingSubmit_missing (serviceId barbershopId : Nat)
    (s : ComponentState) (user : Option Nat)
    (store : BookingRequest → Except StoreError Booking)
    (h : s.hour = none ∨ s.date = none ∨ user = none) :
    handleBookingSubmit serviceId barbershopId s user store =
      { state := { s with submitIsLoading := false }
        result := AttemptResult.noop
        storeCalled := none
        toastShown := false } := by
  rcases hh : s.hour with _ | hourStr <;> rcases hd : s.date with _ | d <;>
    rcases hu : user with _ | uid <;>
      simp_all [handleBookingSubmit]

/-- Shared shape lemma: with hour, date and user all present, the handler
reaches the store with the request built at lines 66-76, and its outcome is
the success record or the caught-and-logged record of the store's answer. -/
theorem handleBookingSubmit_present (serviceId barbershopId : Nat)
    (s : ComponentState) (store : BookingRequest → Except StoreError Booking)
    (hourStr : String) (d : DateTime) (uid : Nat)
    (hh : s.hour = some hourStr) (hd : s.date = some d) :
    handleBookingSubmit serviceId barbershopId s (some uid) store =
      (let newDate : Option DateTime :=
        match jsNumberAt (jsSplit hourStr ':') 0,
            jsNumberAt (jsSplit hourStr ':') 1 with
        | some h, some m => some (setMinutes (setHours d h) m)
        | _, _ => none
      let req : BookingRequest :=
        { serviceId := serviceId, barbershopId := barbershopId,
          date := newDate, userId := uid }
      match store req with
      | Except.ok _ =>
        { state :=
            { s with
              sheetIsOpen := false
              hour := none
              date := none
              submitIsLoading := false }
          result := AttemptResult.confirmed
          storeCalled := some req
          toastShown := true }
      | Except.error e =>
        { state := { s with submitIsLoading := false }
          result := AttemptResult.errorLogged e
          storeCalled := some req
          toastShown := false }) := by
  rw [handleBookingSubmit, hh, hd] <;> assumption

/-- A fixed booking for the success stub below. -/
def stubBooking : Booking := ⟨99, 0, 0, 0, ⟨0, 0, 0, 0, 0⟩⟩

/-- A store stub that always succeeds. -/
def okStore : BookingRequest → Except StoreError Booking :=
  fun _ => Except.ok stubBooking

/-- A store stub that always throws a conflict fault. -/
def conflictStore : BookingRequest → Except StoreError Booking :=
  fun _ => Except.error StoreError.conflict

/-- A store stub that always throws a transient fault. -/
def failStore : BookingRequest → Except StoreError Booking :=
  fun _ => Except.error StoreError.unavailable

/-- C4 counterexample: a concrete submit with no hour selected does not
produce Rejected(InvalidRequest): the handler returns the silent no-op
(lines 62-64 return without reporting anything). -/
theorem submit_missing_not_rejected_cex :
    (handleBookingSubmit 2 1 ⟨some ⟨7, 0, 0, 0, 0⟩, none, false, true, []⟩
        (some 5) okStore).result = AttemptResult.noop ∧
      AttemptResult.noop ≠ AttemptResult.rejected RejectKind.invalidRequest := by
  decide

/-- C4 (amended): with the day, the time-of-day or the user missing, the
submit handler is a silent no-op: no rejection is reported, the storage
layer is never reached, no toast is shown, and the only state change is the
loading flag ending false. -/
theorem submit_missing_is_silent_noop (serviceId barbershopId : Nat)
    (s : ComponentState) (user : Option Nat)
    (store : BookingRequest → Except StoreError Booking)
    (h : s.hour = none ∨ s.date = none ∨ user = none) :
    (handleBookingSubmit serviceId barbershopId s user store).result =
        AttemptResult.noop ∧
      (handleBookingSubmit serviceId barbershopId s user store).storeCalled =
        none ∧
      (handleBookingSubmit serviceId barbershopId s user store).toastShown =
        false ∧
      (handleBookingSubmit serviceId barbershopId s user store).state =
        { s with submitIsLoading := false } := by
  rw [handleBookingSubmit_missing serviceId barbershopId s user store h]
  exact ⟨rfl, rfl, rfl, rfl⟩

/-- C4 witness: the amended no-op shape at a concrete state with no hour. -/
theorem submit_missing_is_silent_noop_witness :
    (handleBookingSubmit 2 1 ⟨some ⟨7, 0, 0, 0, 0⟩, none, false, false, []⟩
        (some 5) okStore).result = AttemptResult.noop ∧
      (handleBookingSubmit 2 1 ⟨some ⟨7, 0, 0, 0, 0⟩, none, false, false, []⟩
        (some 5) okStore).storeCalled = none ∧
      (handleBookingSubmit 2 1 ⟨some ⟨7, 0, 0, 0, 0⟩, none, false, false, []⟩
        (some 5) okStore).toastShown = false ∧
      (handleBookingSubmit 2 1 ⟨some ⟨7, 0, 0, 0, 0⟩, none, false, false, []⟩
        (some 5) okStore).state =
        { (⟨some ⟨7, 0, 0, 0, 0⟩, none, false, false, []⟩ : ComponentState) with
            submitIsLoading := false } :=
  submit_missing_is_silent_noop 2 1 _ _ _ (Or.inl rfl)

/-- C9: the storage layer is never invoked with a missing hour, day or user:
the in-handler guard (lines 62-64) returns before `saveBooking`, and the
confirm button (line 275) is disabled whenever hour or day is missing. -/
theorem store_never_reached_when_missing (serviceId barbershopId : Nat)
    (s : ComponentState) (user : Option Nat)
    (store : BookingRequest → Except StoreError Booking)
    (h : s.hour = none ∨ s.date = none ∨ user = none) :
    (handleBookingSubmit serviceId barbershopId s user store).storeCalled =
        none ∧
      (s.hour = none ∨ s.date = none → confirmButtonDisabled s = true) := by
  constructor
  · rw [handleBookingSubmit_missing serviceId barbershopId s user store h]
  · intro h2
    rcases h2 with h2 | h2 <;> simp [confirmButtonDisabled, h2]

/-- C9 witness: the guards at a concrete state with no selected day. -/
theorem store_never_reached_when_missing_witness :
    (handleBookingSubmit 2 1 ⟨none, some "09:00", false, false, []⟩
        (some 5) okStore).storeCalled = none ∧
      ((⟨none, some "09:00", false, false, []⟩ : ComponentState).hour = none ∨
          (⟨none, some "09:00", false, false, []⟩ : ComponentState).date = none →
        confirmButtonDisabled ⟨none, some "09:00", false, false, []⟩ = true) :=
  store_never_reached_when_missing 2 1 _ _ _ (Or.inr (Or.inl rfl))

/-- C8 counterexample: when the store throws the conflict fault (the slot
lost the race), the handler does not clear the time selection: the selected
hour is still "09:00" afterwards, though the claim says a SlotTaken
rejection clears it. -/
theorem conflict_does_not_clear_hour_cex :
    (handleBookingSubmit 2 1
        ⟨some ⟨7, 0, 0, 0, 0⟩, some "09:00", false, true, []⟩
        (some 5) conflictStore).result =
        AttemptResult.errorLogged StoreError.conflict ∧
      (handleBookingSubmit 2 1
        ⟨some ⟨7, 0, 0, 0, 0⟩, some "09:00", false, true, []⟩
        (some 5) conflictStore).state.hour = some "09:00" ∧
      some "09:00" ≠ (none : Option String) := by
  decide

/-- C8 (amended): every failed attempt, whatever the storage fault
(conflict included), leaves both the selected day and the selected hour
unchanged; the code has no SlotTaken-specific handling. -/
theorem failed_submit_preserves_selection (serviceId barbershopId : Nat)
    (s : ComponentState) (user : Option Nat)
    (store : BookingRequest → Except StoreError Booking) (e : StoreError)
    (hstore : ∀ req, store req = Except.error e) :
    (handleBookingSubmit serviceId barbershopId s user store).state.date =
        s.date ∧
      (handleBookingSubmit serviceId barbershopId s user store).state.hour =
        s.hour := by
  rcases user with _ | uid
  · rw [handleBookingSubmit_missing serviceId barbershopId s none store
      (Or.inr (Or.inr rfl))]
    exact ⟨rfl, rfl⟩
  · rcases hh : s.hour with _ | hourStr
    · rw [handleBookingSubmit_missing serviceId barbershopId s (some uid)
        store (Or.inl hh)]
      exact ⟨rfl, hh⟩
    · rcases hd : s.date with _ | d
      · rw [handleBookingSubmit_missing serviceId barbershopId s (some uid)
          store (Or.inr (Or.inl hd))]
        exact ⟨hd, hh⟩
      · rw [handleBookingSubmit_present serviceId barbershopId s store
          hourStr d uid hh hd]
        simp [hstore, hh, hd]

/-- C8 witness: a concrete conflict-faulting run preserving both
selections. -/
theorem failed_submit_preserves_selection_witness :
    (handleBookingSubmit 2 1
        ⟨some ⟨7, 0, 0, 0, 0⟩, some "10:00", false, true, []⟩
        (some 5) conflictStore).state.date = some ⟨7, 0, 0, 0, 0⟩ ∧
      (handleBookingSubmit 2 1
        ⟨some ⟨7, 0, 0, 0, 0⟩, some "10:00", false, true, []⟩
        (some 5) conflictStore).state.hour = some "10:00" :=
  failed_submit_preserves_selection 2 1 _ _ _ StoreError.conflict
    (fun _ => rfl)

/-- C7: the catch block at lines 90-94 only logs: a transient storage fault
ends as `errorLogged` (console output only), and no run of the handler ever
surfaces a fault to its caller (`thrown` is unreachable), contrary to the
claim that non-conflict faults are surfaced unmodified. -/
theorem storage_fault_swallowed :
    (handleBookingSubmit 2 1
        ⟨some ⟨7, 0, 0, 0, 0⟩, some "10:00", false, true, []⟩
        (some 5) failStore).result =
        AttemptResult.errorLogged StoreError.unavailable ∧
      ∀ (serviceId barbershopId : Nat) (s : ComponentState)
        (user : Option Nat)
        (store : BookingRequest → Except StoreError Booking) (e : StoreError),
        (handleBookingSubmit serviceId barbershopId s user store).result ≠
          AttemptResult.thrown e := by
  constructor
  · decide
  · intro sid bid s u st e
    rcases u with _ | uid
    · rw [handleBookingSubmit_missing sid bid s none st
        (Or.inr (Or.inr rfl))]
      simp
    · rcases hh : s.hour with _ | hourStr
      · rw [handleBookingSubmit_missing sid bid s (some uid) st (Or.inl hh)]
        simp
      · rcases hd : s.date with _ | d
        · rw [handleBookingSubmit_missing sid bid s (some uid) st
            (Or.inr (Or.inl hd))]
          simp
        · rw [handleBookingSubmit_present sid bid s st hourStr d uid hh hd]
          simp only []
          split <;> simp

/-- The booking another client holds at 09:00 on day 7 in the C3 scenario. -/
def bookingAtNine : Booking := ⟨50, 2, 1, 9, ⟨7, 9, 0, 0, 0⟩⟩

/-- C3: the handler performs no availability re-check before commit: in a
state whose own `dayBookings` (and hence any freshly fetched set, which
would contain at least this booking) already holds a booking at the chosen
09:00 slot — so the slot is not free by the component's own filter — the
handler still reaches `saveBooking` and reports success. -/
theorem commit_without_recheck :
    slotIsFree [bookingAtNine] ⟨9, 0⟩ = false ∧
      (handleBookingSubmit 2 1
        ⟨some ⟨7, 0, 0, 0, 0⟩, some "09:00", false, true, [bookingAtNine]⟩
        (some 5) okStore).storeCalled =
        some { serviceId := 2, barbershopId := 1,
               date := some ⟨7, 9, 0, 0, 0⟩, userId := 5 } ∧
      (handleBookingSubmit 2 1
        ⟨some ⟨7, 0, 0, 0, 0⟩, some "09:00", false, true, [bookingAtNine]⟩
        (some 5) okStore).result = AttemptResult.confirmed := by
  decide

/-- C10: on the path that reaches the store, the request's date is the
selected day with its hours and minutes replaced by the values `Number`
parses from the slot string's pieces around ":", while the day, seconds and
milliseconds of the selected date are carried over unchanged. -/
theorem commit_date_from_slot_string (serviceId barbershopId : Nat)
    (s : ComponentState) (user : Option Nat)
    (store : BookingRequest → Except StoreError Booking)
    (hourStr : String) (d : DateTime) (uid : Nat) (hv mv : Nat)
    (hh : s.hour = some hourStr) (hd : s.date = some d)
    (hu : user = some uid)
    (hph : jsNumberAt (jsSplit hourStr ':') 0 = some hv)
    (hpm : jsNumberAt (jsSplit hourStr ':') 1 = some mv) :
    (handleBookingSubmit serviceId barbershopId s user store).storeCalled =
      some { serviceId := serviceId, barbershopId := barbershopId,
             date := some ⟨d.day, hv, mv, d.second, d.millisecond⟩,
             userId := uid } := by
  subst hu
  rw [handleBookingSubmit_present serviceId barbershopId s store
    hourStr d uid hh hd]
  simp only [hph, hpm]
  cases d
  split <;> rfl

/-- C10 witness: slot "09:30" on a selected day carrying second 30 and
millisecond 500: the stored date keeps them (no truncation to minute
granularity). -/
theorem commit_date_from_slot_string_witness :
    (handleBookingSubmit 2 1
        ⟨some ⟨7, 3, 4, 30, 500⟩, some "09:30", false, true, []⟩
        (some 5) okStore).storeCalled =
      some { serviceId := 2, barbershopId := 1,
             date := some ⟨7, 9, 30, 30, 500⟩, userId := 5 } :=
  commit_date_from_slot_string 2 1 _ _ okStore "09:30" ⟨7, 3, 4, 30, 500⟩
    5 9 30 rfl rfl rfl (by decide) (by decide)

/-- C5 counterexample: with "now" on day 10, day 5 is earlier than the
minimum advance-booking threshold (the calendar would not offer it), yet a
reserve attempt for it is Confirmed by the handler, not
Rejected(InvalidRequest): the handler itself checks no date threshold. -/
theorem early_day_not_rejected_cex :
    calendarSelectable ⟨10, 12, 0, 0, 0⟩ ⟨5, 0, 0, 0, 0⟩ = false ∧
      (handleBookingSubmit 2 1
        ⟨some ⟨5, 0, 0, 0, 0⟩, some "09:00", false, true, []⟩
        (some 5) okStore).result = AttemptResult.confirmed ∧
      AttemptResult.confirmed ≠ AttemptResult.rejected RejectKind.invalidRequest := by
  decide

/-- C5 (amended): the advance-booking policy is enforced by the calendar
alone (`fromDate = addDays(now, 1)`, line 185): whenever the selected day
was drawn from the calendar — so it is selectable, i.e. at or after
tomorrow — every date the handler hands to the store lies strictly after
"now"'s day, from tomorrow onward.  The handler itself never rejects an
early day. -/
theorem committed_day_from_calendar (now : DateTime)
    (serviceId barbershopId : Nat) (s : ComponentState) (user : Option Nat)
    (store : BookingRequest → Except StoreError Booking)
    (req : BookingRequest) (nd : DateTime)
    (hcal : ∀ d0, s.date = some d0 → calendarSelectable now d0 = true)
    (hreq : (handleBookingSubmit serviceId barbershopId s user store).storeCalled =
      some req)
    (hnd : req.date = some nd) :
    now.day < nd.day := by
  rcases user with _ | uid
  · rw [handleBookingSubmit_missing serviceId barbershopId s none store
      (Or.inr (Or.inr rfl))] at hreq
    cases hreq
  rcases hh : s.hour with _ | hourStr
  · rw [handleBookingSubmit_missing serviceId barbershopId s (some uid)
      store (Or.inl hh)] at hreq
    cases hreq
  rcases hd : s.date with _ | d
  · rw [handleBookingSubmit_missing serviceId barbershopId s (some uid)
      store (Or.inr (Or.inl hd))] at hreq
    cases hreq
  rw [handleBookingSubmit_present serviceId barbershopId s store
    hourStr d uid hh hd] at hreq
  simp only [] at hreq
  have hcal' := hcal d hd
  have hday : now.day + 1 ≤ d.day := by
    simpa [calendarSelectable, calendarFromDate, addDays] using hcal'
  rcases hp0 : jsNumberAt (jsSplit hourStr ':') 0 with _ | hv <;>
    rcases hp1 : jsNumberAt (jsSplit hourStr ':') 1 with _ | mv <;>
      rw [hp0, hp1] at hreq <;>
        simp only [] at hreq
  · split at hreq <;> simp only [Option.some.injEq] at hreq <;>
      subst hreq <;> cases hnd
  · split at hreq <;> simp only [Option.some.injEq] at hreq <;>
      subst hreq <;> cases hnd
  · split at hreq <;> simp only [Option.some.injEq] at hreq <;>
      subst hreq <;> cases hnd
  · split at hreq <;> simp only [Option.some.injEq] at hreq <;>
      subst hreq <;>
        · rw [Option.some_inj] at hnd
          subst hnd
          simpa [setMinutes, setHours] using Nat.lt_of_succ_le hday

/-- C5 witness: now on day 10, the calendar-selected day 11 with slot
"09:00": the committed date's day 11 is strictly after day 10. -/
theorem committed_day_from_calendar_witness :
    (⟨10, 0, 0, 0, 0⟩ : DateTime).day < (⟨11, 9, 0, 0, 0⟩ : DateTime).day :=
  committed_day_from_calendar ⟨10, 0, 0, 0, 0⟩ 2 1
    ⟨some ⟨11, 0, 0, 0, 0⟩, some "09:00", false, true, []⟩ (some 5) okStore
    ⟨2, 1, some ⟨11, 9, 0, 0, 0⟩, 5⟩ ⟨11, 9, 0, 0, 0⟩
    (by intro d0 h0
        simp only [Option.some.injEq] at h0
        subst h0
        decide)
    (by decide) rfl

/-! ### Lemmas about the spec-modelled Booking Store -/

theorem targetsKey_iff (r : ReserveCall) (biz day : Nat) (t : TimeOfDay) :
    targetsKey r biz day t = true ↔
      r.barbershopId = biz ∧ r.day = day ∧ r.time = t := by
  simp [targetsKey, and_assoc]

theorem hasKey_cons (b : Booking) (store : List Booking) (biz : Nat)
    (dt : DateTime) :
    hasKey (b :: store) biz dt =
      ((b.barbershopId == biz && b.date == dt) || hasKey store biz dt) := by
  simp [hasKey]

/-- Presence of a key is monotone: `createBooking` never removes bookings. -/
theorem hasKey_createBooking (store : List Booking) (n : Nat)
    (r : ReserveCall) (biz : Nat) (dt : DateTime)
    (h : hasKey store biz dt = true) :
    hasKey (createBooking store n r).1 biz dt = true := by
  unfold createBooking
  split
  · exact h
  · rw [hasKey_cons, h]
    simp

/-- The guard outcome, spelled out: taken key means conflict and an
unchanged store. -/
theorem createBooking_of_taken (store : List Booking) (n : Nat)
    (r : ReserveCall)
    (h : hasKey store r.barbershopId (slotDateTime r.day r.time) = true) :
    createBooking store n r = (store, Except.error StoreError.conflict) := by
  unfold createBooking
  rw [h]
  simp

/-- The guard outcome, spelled out: free key means the booking is persisted
and returned. -/
theorem createBooking_of_free (store : List Booking) (n : Nat)
    (r : ReserveCall)
    (h : hasKey store r.barbershopId (slotDateTime r.day r.time) = false) :
    createBooking store n r =
      (⟨n, r.serviceId, r.barbershopId, r.userId,
          slotDateTime r.day r.time⟩ :: store,
        Except.ok ⟨n, r.serviceId, r.barbershopId, r.userId,
          slotDateTime r.day r.time⟩) := by
  unfold createBooking
  rw [h]
  simp

theorem slotDateTime_inj {day day' : Nat} {t t' : TimeOfDay}
    (h : slotDateTime day t = slotDateTime day' t') : day = day' ∧ t = t' := by
  cases t
  cases t'
  simp only [slotDateTime, DateTime.mk.injEq, TimeOfDay.mk.injEq] at h ⊢
  exact ⟨h.1, h.2.1, h.2.2.1⟩

/-- A call that does not target the key cannot make the key appear. -/
theorem hasKey_createBooking_absent (store : List Booking) (n : Nat)
    (r : ReserveCall) (biz day : Nat) (t : TimeOfDay)
    (h : hasKey store biz (slotDateTime day t) = false)
    (ht : targetsKey r biz day t = false) :
    hasKey (createBooking store n r).1 biz (slotDateTime day t) = false := by
  unfold createBooking
  split
  · exact h
  · rw [hasKey_cons, h]
    simp only [Bool.or_false]
    rw [Bool.and_eq_false_iff]
    by_cases hbiz : r.barbershopId = biz
    · right
      rw [beq_eq_false_iff_ne]
      intro hdt
      obtain ⟨hday, htime⟩ := slotDateTime_inj hdt
      rw [targetsKey, hbiz, hday, htime] at ht
      simp at ht
    · left
      rw [beq_eq_false_iff_ne]
      exact hbiz

/-- A successful `createBooking` makes its key present. -/
theorem hasKey_createBooking_success (store : List Booking) (n : Nat)
    (r : ReserveCall)
    (h : hasKey store r.barbershopId (slotDateTime r.day r.time) = false) :
    hasKey (createBooking store n r).1 r.barbershopId
      (slotDateTime r.day r.time) = true := by
  rw [createBooking_of_free store n r h]
  rw [hasKey_cons]
  simp

theorem runReserves_nil (store : List Booking) (n : Nat) :
    runReserves store n [] = (store, []) := rfl

theorem runReserves_cons (store : List Booking) (n : Nat) (r : ReserveCall)
    (rs : List ReserveCall) :
    runReserves store n (r :: rs) =
      ((runReserves (createBooking store n r).1 (n + 1) rs).1,
        (r, match (createBooking store n r).2 with
          | Except.ok _ => true
          | Except.error _ => false) ::
          (runReserves (createBooking store n r).1 (n + 1) rs).2) := rfl

theorem countConfirmed_nil (biz day : Nat) (t : TimeOfDay) :
    countConfirmed [] biz day t = 0 := rfl

theorem countConfirmed_cons (p : ReserveCall × Bool)
    (out : List (ReserveCall × Bool)) (biz day : Nat) (t : TimeOfDay) :
    countConfirmed (p :: out) biz day t =
      (if (p.2 && targetsKey p.1 biz day t) = true then 1 else 0) +
        countConfirmed out biz day t := by
  rw [countConfirmed, List.filter_cons]
  split
  · simp [countConfirmed, Nat.add_comm]
  · simp [countConfirmed]

/-- Once the key is taken, no later call in the run targeting it is
Confirmed. -/
theorem countConfirmed_dead (rs : List ReserveCall) :
    ∀ (store : List Booking) (n biz day : Nat) (t : TimeOfDay),
      hasKey store biz (slotDateTime day t) = true →
        countConfirmed (runReserves store n rs).2 biz day t = 0 := by
  induction rs with
  | nil =>
    intro store n biz day t _
    rw [runReserves_nil]
    rfl
  | cons r rs ih =>
    intro store n biz day t h
    rw [runReserves_cons, countConfirmed_cons]
    rcases htg : targetsKey r biz day t with _ | _
    · rw [ih _ _ _ _ _ (hasKey_createBooking store n r biz _ h)]
      simp
    · obtain ⟨h1, h2, h3⟩ := (targetsKey_iff r biz day t).mp htg
      have hguard : hasKey store r.barbershopId
          (slotDateTime r.day r.time) = true := by
        rw [h1, h2, h3]
        exact h
      rw [createBooking_of_taken store n r hguard]
      rw [ih store (n + 1) biz day t h]
      simp

/-- From a store where the key is free, any interleaving of reserve calls
confirms the key at most once. -/
theorem countConfirmed_le_one (rs : List ReserveCall) :
    ∀ (store : List Booking) (n biz day : Nat) (t : TimeOfDay),
      hasKey store biz (slotDateTime day t) = false →
        countConfirmed (runReserves store n rs).2 biz day t ≤ 1 := by
  induction rs with
  | nil =>
    intro store n biz day t _
    rw [runReserves_nil]
    exact Nat.zero_le 1
  | cons r rs ih =>
    intro store n biz day t h
    rw [runReserves_cons, countConfirmed_cons]
    rcases htg : targetsKey r biz day t with _ | _
    · have hnext := ih _ (n + 1) _ _ _
        (hasKey_createBooking_absent store n r biz day t h htg)
      simp only [htg, Bool.and_false]
      simpa using hnext
    · obtain ⟨h1, h2, h3⟩ := (targetsKey_iff r biz day t).mp htg
      have hguard : hasKey store r.barbershopId
          (slotDateTime r.day r.time) = false := by
        rw [h1, h2, h3]
        exact h
      have hafter := hasKey_createBooking_success store n r hguard
      rw [h1, h2, h3] at hafter
      have hrest := countConfirmed_dead rs (createBooking store n r).1
        (n + 1) biz day t hafter
      rw [hrest]
      rw [createBooking_of_free store n r hguard]
      simp

/-- The store invariant carried through a run: every booking sits exactly on
a minute-granularity slot, and no two bookings collide on
(business, day, hour, minute). -/
def storeOk (store : List Booking) : Prop :=
  (∀ b ∈ store, b.date.second = 0 ∧ b.date.millisecond = 0) ∧
    store.Pairwise (fun a b => ¬ sameSlotKey a b)

theorem storeOk_nil : storeOk [] := by
  constructor
  · intro b hb
    cases hb
  · exact List.Pairwise.nil

/-- `createBooking` preserves the store invariant: the guard refuses any
call whose minute-granularity slot is already taken. -/
theorem storeOk_createBooking (store : List Booking) (n : Nat)
    (r : ReserveCall) (h : storeOk store) :
    storeOk (createBooking store n r).1 := by
  rcases hk : hasKey store r.barbershopId (slotDateTime r.day r.time) with _ | _
  · rw [createBooking_of_free store n r hk]
    constructor
    · intro b hb
      rcases hb with _ | ⟨_, hb⟩
      · exact ⟨rfl, rfl⟩
      · exact h.1 b hb
    · refine List.Pairwise.cons ?_ h.2
      intro x hx hsame
      obtain ⟨hsec, hms⟩ := h.1 x hx
      apply absurd hk
      rw [Bool.not_eq_false, hasKey, List.any_eq_true]
      refine ⟨x, hx, ?_⟩
      obtain ⟨hbiz, hday, hhour, hmin⟩ := hsame
      have hdate : x.date = slotDateTime r.day r.time := by
        cases hxd : x.date
        rw [hxd] at hsec hms hday hhour hmin
        simp only [slotDateTime] at hday hhour hmin ⊢
        simp only [DateTime.mk.injEq]
        exact ⟨hday.symm, hhour.symm, hmin.symm, hsec, hms⟩
      rw [Bool.and_eq_true, beq_iff_eq, beq_iff_eq]
      exact ⟨hbiz.symm, hdate⟩
  · rw [createBooking_of_taken store n r hk]
    exact h

/-- Every run of reserve calls preserves the store invariant. -/
theorem storeOk_runReserves (rs : List ReserveCall) :
    ∀ (store : List Booking) (n : Nat), storeOk store →
      storeOk (runReserves store n rs).1 := by
  induction rs with
  | nil =>
    intro store n h
    rw [runReserves_nil]
    exact h
  | cons r rs ih =>
    intro store n h
    rw [runReserves_cons]
    exact ih _ (n + 1) (storeOk_createBooking store n r h)

/-- C1: (i) from any store in which the (business, day, time-of-day) slot is
still free, every interleaving of reserve calls confirms at most one call
targeting that slot; (ii) after any run from the empty store, no two
committed bookings share a business, calendar day and time-of-day. -/
theorem no_double_booking :
    (∀ (store : List Booking) (n : Nat) (rs : List ReserveCall)
      (biz day : Nat) (t : TimeOfDay),
      hasKey store biz (slotDateTime day t) = false →
        countConfirmed (runReserves store n rs).2 biz day t ≤ 1) ∧
    (∀ (n : Nat) (rs : List ReserveCall),
      (runReserves [] n rs).1.Pairwise (fun a b => ¬ sameSlotKey a b)) := by
  constructor
  · intro store n rs biz day t h
    exact countConfirmed_le_one rs store n biz day t h
  · intro n rs
    exact (storeOk_runReserves rs [] n storeOk_nil).2

/-- C1 witness: two concurrent reserve calls for 09:00 on day 7 at the same
barbershop, run from the empty store: at most one is Confirmed. -/
theorem no_double_booking_witness :
    countConfirmed
      (runReserves [] 0
        [⟨1, 2, 3, 7, ⟨9, 0⟩⟩, ⟨1, 2, 4, 7, ⟨9, 0⟩⟩]).2 1 7 ⟨9, 0⟩ ≤ 1 :=
  no_double_booking.1 [] 0 [⟨1, 2, 3, 7, ⟨9, 0⟩⟩, ⟨1, 2, 4, 7, ⟨9, 0⟩⟩]
    1 7 ⟨9, 0⟩ rfl

end Barber
